import Mathlib

/-!
Shallow embedding of the ScanzoQR offline-resilience layer: the service
worker (cache router, cache strategies, control channel, lifecycle) and the
dual-tier history persistence layer (StorageManager).  Definitions are
translated from the JavaScript source; asynchronous storage and network
effects are modelled by explicit state passing and oracle functions.
-/

namespace Scanzo

/-! ## JavaScript string primitives -/

/-- Boolean test that `pat` is a prefix of `l` (character lists). -/
def charsPrefix : List Char → List Char → Bool
  | [], _ => true
  | _ :: _, [] => false
  | a :: as, b :: bs => a == b && charsPrefix as bs

/-- Boolean test that `sub` occurs as a contiguous substring of the second
list; models the JavaScript `String.prototype.includes`. -/
def charsContains (sub : List Char) : List Char → Bool
  | [] => charsPrefix sub []
  | c :: rest => charsPrefix sub (c :: rest) || charsContains sub rest

/-- Models `s.includes(sub)` in JavaScript. -/
def jsIncludes (s sub : String) : Bool :=
  charsContains sub.data s.data

/-- Models `s.startsWith(p)` in JavaScript. -/
def jsStartsWith (s p : String) : Bool :=
  charsPrefix p.data s.data

/-- Replace the first occurrence of `pat` by `rep`; models the JavaScript
`String.prototype.replace` with a plain-string pattern, which rewrites only
the first occurrence. -/
def replaceFirstList (pat rep : List Char) : List Char → List Char
  | [] => if charsPrefix pat [] then rep else []
  | c :: rest =>
      if charsPrefix pat (c :: rest) then rep ++ (c :: rest).drop pat.length
      else c :: replaceFirstList pat rep rest

/-- Models `s.replace(pat, rep)` in JavaScript (first occurrence only). -/
def jsReplace (s pat rep : String) : String :=
  String.mk (replaceFirstList pat.data rep.data s.data)

/-! ## Service-worker data model

A request descriptor carries the fields the worker inspects: the full URL,
the HTTP method, the URL protocol and origin (in the browser these are
derived from the URL; the embedding carries them explicitly), and the value
of the Accept header when one is set. -/

/-- A response payload: HTTP status, status text, content type header and
body bytes. -/
structure Response where
  status : Nat
  statusText : String
  contentType : Option String
  body : String
deriving Repr, DecidableEq

/-- Models the JavaScript `Response.ok`: status in the range 200..299. -/
def Response.ok (r : Response) : Bool :=
  200 ≤ r.status && r.status < 300

/-- A request descriptor as inspected by the worker. -/
structure Request where
  url : String
  method : String
  protocol : String
  origin : String
  accept : Option String
deriving Repr, DecidableEq

/-- Cache version constant `CACHE_NAME` from the worker source. -/
def CACHE_NAME : String := "scanzo-qr-v2.1.0"

/-- Static store name `STATIC_CACHE` from the worker source. -/
def STATIC_CACHE : String := "scanzo-static-v2.1.0"

/-- Dynamic store name `DYNAMIC_CACHE` from the worker source. -/
def DYNAMIC_CACHE : String := "scanzo-dynamic-v2.1.0"

/-- The fixed static asset manifest `STATIC_ASSETS` from the worker source. -/
def STATIC_ASSETS : List String :=
  [ "./",
    "./index.html",
    "./styles.css",
    "./manifest.json",
    "./icons/icon-72.png",
    "./icons/icon-96.png",
    "./icons/icon-128.png",
    "./icons/icon-144.png",
    "./icons/icon-152.png",
    "./icons/icon-192.png",
    "./icons/icon-384.png",
    "./icons/icon-512.png",
    "https://fonts.googleapis.com/css2?family=Inter:wght@300;400;500;600;700;800;900&display=swap",
    "https://cdnjs.cloudflare.com/ajax/libs/font-awesome/6.4.0/css/all.min.css",
    "https://cdnjs.cloudflare.com/ajax/libs/qrcodejs/1.0.0/qrcode.min.js",
    "https://cdn.jsdelivr.net/npm/jsqr@1.4.0/dist/jsQR.js" ]

/-- The `DYNAMIC_PATTERNS` regular expressions from the worker source.  Each
is an anchored literal prefix (every metacharacter is escaped), so matching
a URL against the pattern is a prefix test. -/
def DYNAMIC_PATTERNS : List String :=
  [ "https://fonts.gstatic.com/",
    "https://cdnjs.cloudflare.com/",
    "https://cdn.jsdelivr.net/" ]

/-- The static-asset test in `handleFetch`:
`STATIC_ASSETS.some`, testing that the URL includes the manifest entry with
a leading ./ removed. -/
def matchesStaticAssets (url : String) : Bool :=
  STATIC_ASSETS.any (fun asset => jsIncludes url (jsReplace asset "./" ""))

/-- The dynamic-content test in `handleFetch`:
`DYNAMIC_PATTERNS.some(pattern => pattern.test(request.url))`. -/
def matchesDynamicPattern (url : String) : Bool :=
  DYNAMIC_PATTERNS.any (fun pat => jsStartsWith url pat)

/-! ## Cache storage model

The Cache Storage API is modelled as an association list of named stores,
each an association list from request URL to stored response.  `put` on an
existing key replaces the stored value; otherwise it appends. -/

/-- The set of named caches: store name to entry list. -/
abbrev CacheState : Type := List (String × List (String × Response))

/-- Entries of the named store (empty when the store does not exist yet). -/
def storeOf (st : CacheState) (name : String) : List (String × Response) :=
  ((st.find? (fun p => p.1 == name)).map Prod.snd).getD []

/-- Models `cache.match(request)` on the named store. -/
def cacheMatch (st : CacheState) (name url : String) : Option Response :=
  ((storeOf st name).find? (fun e => e.1 == url)).map Prod.snd

/-- Replace the entry for `url` or append a new one (`cache.put`). -/
def putEntry (entries : List (String × Response)) (url : String) (resp : Response) :
    List (String × Response) :=
  if entries.any (fun e => e.1 == url) then
    entries.map (fun e => if e.1 == url then (url, resp) else e)
  else entries ++ [(url, resp)]

/-- Models `caches.open(name)` followed by `cache.put(request, response)`. -/
def cachePut (st : CacheState) (name url : String) (resp : Response) : CacheState :=
  if st.any (fun p => p.1 == name) then
    st.map (fun p => if p.1 == name then (p.1, putEntry p.2 url resp) else p)
  else st ++ [(name, putEntry [] url resp)]

/-- The network oracle: per URL, `some r` when `fetch` resolves with
response `r`, `none` when it rejects (network failure). -/
abbrev Net : Type := String → Option Response

/-! ## Cache strategies

Each strategy returns the outcome of its returned promise
(`Except.error` = rejected; `Except.ok none` = resolved with `undefined`;
`Except.ok (some r)` = resolved with response `r`), the cache state after
the call, and whether a network fetch was issued. -/

deriving instance DecidableEq for Except

/-- Outcome of one strategy invocation. -/
structure StratResult where
  result : Except Unit (Option Response)
  state : CacheState
  fetched : Bool
deriving Repr, DecidableEq

/-- The 503 response built in the catch branch of `cacheFirst`. -/
def resourceUnavailableResponse : Response :=
  { status := 503, statusText := "Service Unavailable",
    contentType := none, body := "Offline - Resource not available" }

/-- The `cacheFirst` strategy from the worker source: on a cache hit return
the stored response without touching the network; on a miss fetch, persist
the copy only when the response is ok, and return the network response; on
network failure return a 503 response from the catch branch. -/
def cacheFirst (net : Net) (st : CacheState) (req : Request) (cacheName : String) :
    StratResult :=
  match cacheMatch st cacheName req.url with
  | some cached => ⟨Except.ok (some cached), st, false⟩
  | none =>
    match net req.url with
    | some nr =>
        if nr.ok then ⟨Except.ok (some nr), cachePut st cacheName req.url nr, true⟩
        else ⟨Except.ok (some nr), st, true⟩
    | none => ⟨Except.ok (some resourceUnavailableResponse), st, true⟩

/-- The `networkFirstWithCache` strategy: fetch first, persist on ok; on
network failure fall back to the cache; rethrow when the cache also
misses. -/
def networkFirstWithCache (net : Net) (st : CacheState) (req : Request)
    (cacheName : String) : StratResult :=
  match net req.url with
  | some nr =>
      if nr.ok then ⟨Except.ok (some nr), cachePut st cacheName req.url nr, true⟩
      else ⟨Except.ok (some nr), st, true⟩
  | none =>
    match cacheMatch st cacheName req.url with
    | some cached => ⟨Except.ok (some cached), st, true⟩
    | none => ⟨Except.error (), st, true⟩

/-- The `staleWhileRevalidate` strategy.  The background fetch persists an
ok response; its `catch` handler only logs, so a failed background fetch
resolves with `undefined`.  On a cache hit the cached response is returned
immediately; on a miss the caller awaits the background promise, receiving
the network response or — after a network failure — `undefined`
(`Except.ok none`), never a rejection. -/
def staleWhileRevalidate (net : Net) (st : CacheState) (req : Request)
    (cacheName : String) : StratResult :=
  let cached := cacheMatch st cacheName req.url
  let fetchOutcome : Option Response × CacheState :=
    match net req.url with
    | some nr =>
        if nr.ok then (some nr, cachePut st cacheName req.url nr) else (some nr, st)
    | none => (none, st)
  match cached with
  | some c => ⟨Except.ok (some c), fetchOutcome.2, true⟩
  | none => ⟨Except.ok fetchOutcome.1, fetchOutcome.2, true⟩

/-- The `networkFirst` strategy: pass straight to the network, rethrowing
failures; no cache interaction. -/
def networkFirst (net : Net) (st : CacheState) (req : Request) : StratResult :=
  match net req.url with
  | some nr => ⟨Except.ok (some nr), st, true⟩
  | none => ⟨Except.error (), st, true⟩

/-! ## Fetch dispatcher -/

/-- The offline placeholder page synthesized in `handleFetchError` for HTML
requests (the template literal from the worker source; braces are written
as hex escapes). -/
def offlinePageHtml : String :=
"
            <!DOCTYPE html>
            <html>
            <head>
                <title>ScanzoQR - Offline</title>
                <meta charset=\"utf-8\">
                <meta name=\"viewport\" content=\"width=device-width, initial-scale=1\">
                <style>
                    body \x7b
                        font-family: \x27Inter\x27, sans-serif;
                        text-align: center;
                        padding: 50px;
                        background: #0D1117;
                        color: #F0F6FC;
                    \x7d
                    .offline-icon \x7b font-size: 64px; margin-bottom: 20px; \x7d
                    .offline-title \x7b font-size: 24px; margin-bottom: 16px; \x7d
                    .offline-message \x7b color: #8B949E; margin-bottom: 24px; \x7d
                    .retry-btn \x7b
                        background: linear-gradient(135deg, #FF6B35 0%, #F7931E 100%);
                        color: white;
                        border: none;
                        padding: 12px 24px;
                        border-radius: 12px;
                        cursor: pointer;
                        font-weight: 600;
                    \x7d
                </style>
            </head>
            <body>
                <div class=\"offline-icon\">📱</div>
                <h1 class=\"offline-title\">You\x27re Offline</h1>
                <p class=\"offline-message\">ScanzoQR works offline! Your cached content is still available.</p>
                <button class=\"retry-btn\" onclick=\"location.reload()\">Try Again</button>
            </body>
            </html>
        "

/-- Accept-header test in `handleFetchError`:
`request.headers.get(Accept)?.includes(text/html)`; a request without the
header is treated as non-HTML (optional chaining yields a falsy value). -/
def acceptsHtml (req : Request) : Bool :=
  match req.accept with
  | some a => jsIncludes a "text/html"
  | none => false

/-- The offline placeholder response for HTML requests: status 200 with a
text/html content type. -/
def offlinePageResponse : Response :=
  { status := 200, statusText := "", contentType := some "text/html",
    body := offlinePageHtml }

/-- The generic offline response for non-HTML requests. -/
def genericOfflineResponse : Response :=
  { status := 503, statusText := "Service Unavailable",
    contentType := none, body := "Offline" }

/-- The `handleFetchError` fallback: an offline placeholder page when the
Accept header includes text/html, a generic 503 response otherwise. -/
def handleFetchError (req : Request) : Response :=
  if acceptsHtml req then offlinePageResponse else genericOfflineResponse

/-- Strategy selection and execution: the try block of `handleFetch`, with
its four policy rules tested in priority order. -/
def handleFetchCore (selfOrigin : String) (net : Net) (st : CacheState)
    (req : Request) : StratResult :=
  if matchesStaticAssets req.url then cacheFirst net st req STATIC_CACHE
  else if matchesDynamicPattern req.url then networkFirstWithCache net st req DYNAMIC_CACHE
  else if req.origin == selfOrigin then staleWhileRevalidate net st req STATIC_CACHE
  else networkFirst net st req

/-- Catch combinator of `handleFetch`: a rejected strategy promise is
replaced by the `handleFetchError` response; a fulfilled promise (including
fulfilment with `undefined`) is returned unchanged. -/
def dispatchWithFallback (req : Request) (tryOutcome : Except Unit (Option Response)) :
    Option Response :=
  match tryOutcome with
  | Except.ok r => r
  | Except.error _ => some (handleFetchError req)

/-- The full `handleFetch` dispatcher: run the try block, substituting the
error response when the chosen strategy rejects. -/
def handleFetch (selfOrigin : String) (net : Net) (st : CacheState) (req : Request) :
    Option Response × CacheState :=
  let s := handleFetchCore selfOrigin net st req
  (dispatchWithFallback req s.result, s.state)

/-- The fetch event listener: non-GET requests and chrome-extension scheme
requests are passed through (no interception); every other request is
answered by `handleFetch`. -/
def fetchEvent (selfOrigin : String) (net : Net) (st : CacheState) (req : Request) :
    Option (Option Response × CacheState) :=
  if req.method != "GET" then none
  else if req.protocol == "chrome-extension:" then none
  else some (handleFetch selfOrigin net st req)

/-! ## Control channel (message event listener)

The caches backend is abstracted by the list of existing cache names, a
deletion oracle (success or an error message) and a key-listing oracle. -/

/-- A message posted back over the reply port `event.ports[0]`. -/
structure PostedMessage where
  type : String
  success : Option Bool
  error : Option String
  version : Option String
  status : Option (List (String × Nat × List String))
deriving Repr, DecidableEq

/-- Models `clearAllCaches`: delete every cache whose name starts with
scanzo-; `Promise.all` rejects with the first failing deletion, and the
function rethrows that error. -/
def clearAllCaches (names : List String) (del : String → Except String Unit) :
    Except String Unit :=
  (names.filter (fun n => jsStartsWith n "scanzo-")).foldl
    (fun acc n =>
      match acc with
      | Except.error e => Except.error e
      | Except.ok _ => del n)
    (Except.ok ())

/-- Models `getCacheStatus`: for every scanzo- cache, its entry count and
the list of cached keys. -/
def getCacheStatus (names : List String) (stores : String → List String) :
    List (String × Nat × List String) :=
  (names.filter (fun n => jsStartsWith n "scanzo-")).map
    (fun n => (n, (stores n).length, stores n))

/-- The discriminated command type of the control channel. -/
inductive SWMessage
  | skipWaiting
  | getVersion
  | clearCache
  | cacheStatus
  | unknown (t : String)
deriving Repr, DecidableEq

/-- The message event listener: returns the list of messages posted to the
reply port and whether `skipWaiting` was invoked.  Unknown message types
are logged and ignored. -/
def handleMessage (msg : SWMessage) (names : List String)
    (del : String → Except String Unit) (stores : String → List String) :
    List PostedMessage × Bool :=
  match msg with
  | SWMessage.skipWaiting => ([], true)
  | SWMessage.getVersion =>
      ([⟨"VERSION_RESPONSE", none, none, some CACHE_NAME, none⟩], false)
  | SWMessage.clearCache =>
      match clearAllCaches names del with
      | Except.ok _ => ([⟨"CACHE_CLEARED", some true, none, none, none⟩], false)
      | Except.error e => ([⟨"CACHE_CLEARED", some false, some e, none, none⟩], false)
  | SWMessage.cacheStatus =>
      ([⟨"CACHE_STATUS_RESPONSE", none, none, none,
         some (getCacheStatus names stores)⟩], false)
  | SWMessage.unknown _ => ([], false)

/-! ## Activate lifecycle -/

/-- Observable steps of the activate handler. -/
inductive ActivateEvent
  | deleteStore (name : String)
  | claimClients
deriving Repr, DecidableEq

/-- Cache names selected for deletion at activation: scanzo- caches other
than the current static and dynamic stores. -/
def activateTargets (names : List String) : List String :=
  names.filter (fun n =>
    jsStartsWith n "scanzo-" && n != STATIC_CACHE && n != DYNAMIC_CACHE)

/-- The activate event listener as the trace of its completed steps: the
deletions completed by `Promise.all(deletePromises)` (given a per-store
success oracle), then — only after the awaited `Promise.all` resolves,
which requires every deletion to have completed — `clients.claim()`.  When
a deletion fails, the rejection is caught and the claim step never runs. -/
def activateHandler (names : List String) (del : String → Bool) : List ActivateEvent :=
  ((activateTargets names).filter del).map ActivateEvent.deleteStore ++
    (if (activateTargets names).all del then [ActivateEvent.claimClients] else [])

/-! ## History persistence (StorageManager)

A history record as built by the application: identifier, kind, mode,
content type, raw content, optional rendered-image payload, timestamp,
preview and size.  The raw content is optional because the reduced-fidelity
projection omits it; the ISO timestamp string is identified with its time
value (an integer) since the code only compares parsed dates. -/

/-- A history record. -/
structure HistoryRecord where
  id : Nat
  type : String
  mode : String
  contentType : String
  content : Option String
  qrData : Option String
  timestamp : Int
  preview : String
  size : Nat
deriving Repr, DecidableEq

/-- JavaScript exceptions distinguished by `saveToLocalStorage`. -/
inductive JSError
  | quotaExceeded
  | other (msg : String)
deriving Repr, DecidableEq

/-- The localStorage backend: the value stored under the fixed key
qrHistory, plus a quota oracle deciding whether a value fits. -/
structure LocalStorageEnv where
  fits : List HistoryRecord → Bool
  store : Option (List HistoryRecord)

/-- Models `localStorage.setItem(qrHistory, JSON.stringify(v))`: succeeds
and replaces the stored value when it fits the quota, otherwise raises
QuotaExceededError. -/
def setItem (ls : LocalStorageEnv) (v : List HistoryRecord) :
    Except JSError LocalStorageEnv :=
  if ls.fits v then Except.ok { ls with store := some v }
  else Except.error JSError.quotaExceeded

/-- JavaScript truthiness of an optional string: an absent value and the
empty string are falsy, every other string is truthy. -/
def jsTruthy : Option String → Bool
  | some s => s != ""
  | none => false

/-- First-attempt projection in `saveToLocalStorage`:
`qrData: item.qrData ? stored_in_indexeddb : undefined`. -/
def sanitizeForLocal (item : HistoryRecord) : HistoryRecord :=
  { item with
    qrData := if jsTruthy item.qrData then some "stored_in_indexeddb" else none }

/-- Reduced-fidelity projection used after a quota error: identifier, kind,
mode, content type, preview, timestamp and size only. -/
def minimalProjection (item : HistoryRecord) : HistoryRecord :=
  { id := item.id, type := item.type, mode := item.mode,
    contentType := item.contentType, content := none, qrData := none,
    timestamp := item.timestamp, preview := item.preview, size := item.size }

/-- Models `saveToLocalStorage`: write the sanitized array; on a
QuotaExceededError retry once with the reduced-fidelity projection (whose
own failure propagates); rethrow any other error. -/
def saveToLocalStorage (ls : LocalStorageEnv) (historyArray : List HistoryRecord) :
    Except JSError LocalStorageEnv :=
  match setItem ls (historyArray.map sanitizeForLocal) with
  | Except.ok ls2 => Except.ok ls2
  | Except.error JSError.quotaExceeded => setItem ls (historyArray.map minimalProjection)
  | Except.error e => Except.error e

/-- The IndexedDB backend: availability flag and the stored records. -/
structure IDBState where
  available : Bool
  records : List HistoryRecord
deriving Repr, DecidableEq

/-- Models `saveToIndexedDB`: within one transaction, clear the store and
add every record (record identifiers are the keys). -/
def saveToIndexedDB (idb : IDBState) (historyArray : List HistoryRecord) : IDBState :=
  if idb.available then { idb with records := historyArray } else idb

/-- Models `loadFromLocalStorage`: the parsed stored array, or an empty
list when nothing is stored. -/
def loadFromLocalStorage (ls : LocalStorageEnv) : List HistoryRecord :=
  ls.store.getD []

/-- Models `loadFromIndexedDB`: all records, or an empty list when the
database is unavailable. -/
def loadFromIndexedDB (idb : IDBState) : List HistoryRecord :=
  if idb.available then idb.records else []

/-- Models `merged.set(item.id, item)` on a JavaScript Map keyed by the
record identifier: an existing key keeps its insertion position and
receives the new value; a new key is appended. -/
def mapSet (m : List HistoryRecord) (item : HistoryRecord) : List HistoryRecord :=
  if m.any (fun r => r.id == item.id) then
    m.map (fun r => if r.id == item.id then item else r)
  else m ++ [item]

/-- Second loop of `mergeHistoryData`: insert every local record whose
identifier is not already present in the map. -/
def addMissing (m : List HistoryRecord) (l : List HistoryRecord) : List HistoryRecord :=
  l.foldl
    (fun acc item =>
      if acc.any (fun r => r.id == item.id) then acc else acc ++ [item]) m

/-- Models `mergeHistoryData(localData, indexedData)`: seed an
identifier-keyed map from the IndexedDB records, then add the localStorage
records whose identifiers are missing; the result is the value sequence in
insertion order. -/
def mergeHistoryData (localData indexedData : List HistoryRecord) : List HistoryRecord :=
  addMissing (indexedData.foldl mapSet []) localData

/-- Ordering used by the `loadHistory` sort: descending by timestamp. -/
def tsGE (a b : HistoryRecord) : Prop := b.timestamp ≤ a.timestamp

instance : DecidableRel tsGE := fun _ b => Int.decLe b.timestamp _

instance : IsTotal HistoryRecord tsGE := ⟨fun a b => le_total b.timestamp a.timestamp⟩

instance : IsTrans HistoryRecord tsGE := ⟨fun _ _ _ h1 h2 => le_trans h2 h1⟩

/-- The sort in `loadHistory`:
`.sort((a, b) => new Date(b.timestamp) - new Date(a.timestamp))`, a
comparison sort by descending timestamp. -/
def sortByTimestampDesc (l : List HistoryRecord) : List HistoryRecord :=
  List.insertionSort tsGE l

/-- Models `loadHistory`: read localStorage; when IndexedDB is available,
merge in its records; sort the result by timestamp descending. -/
def loadHistory (ls : LocalStorageEnv) (idb : IDBState) : List HistoryRecord :=
  if idb.available then
    sortByTimestampDesc
      (mergeHistoryData (loadFromLocalStorage ls) (loadFromIndexedDB idb))
  else sortByTimestampDesc (loadFromLocalStorage ls)

/-- Presence of a record identifier in a record sequence. -/
abbrev hasId (l : List HistoryRecord) (i : Nat) : Prop :=
  ∃ r ∈ l, r.id = i

/-- Models `saveHistory`: write both backends best-effort
(`Promise.allSettled`); a failed localStorage write leaves that backend
unchanged and does not affect the IndexedDB write. -/
def saveHistory (ls : LocalStorageEnv) (idb : IDBState)
    (historyArray : List HistoryRecord) : LocalStorageEnv × IDBState :=
  (match saveToLocalStorage ls historyArray with
   | Except.ok ls2 => ls2
   | Except.error _ => ls,
   saveToIndexedDB idb historyArray)

/-! ## Concrete fixtures used by the claim theorems -/

/-- Origin of the application itself. -/
def appOrigin : String := "https://scanzo.example"

/-- URL matching the fonts.gstatic.com dynamic-origin pattern. -/
def fontsURL : String := "https://fonts.gstatic.com/s/inter/v12/a.woff2"

/-- The GET request for `fontsURL`. -/
def fontsRequest : Request :=
  { url := fontsURL, method := "GET", protocol := "https:",
    origin := "https://fonts.gstatic.com", accept := none }

/-- A successful font response. -/
def fontsResponse : Response :=
  { status := 200, statusText := "OK", contentType := some "font/woff2",
    body := "FONTBYTES" }

/-- A network that serves exactly `fontsURL`. -/
def fontsNet : Net := fun u => if u == fontsURL then some fontsResponse else none

/-- A fully unreachable network. -/
def netDown : Net := fun _ => none

/-- A same-origin navigation request with an HTML Accept header. -/
def swrRequest : Request :=
  { url := "https://scanzo.example/page", method := "GET", protocol := "https:",
    origin := appOrigin, accept := some "text/html" }

/-- A request for the index.html manifest asset. -/
def idxRequest : Request :=
  { url := "./index.html", method := "GET", protocol := "https:",
    origin := appOrigin, accept := some "text/html" }

/-- A response for the index.html asset. -/
def idxResponse : Response :=
  { status := 200, statusText := "OK", contentType := some "text/html",
    body := "INDEX" }

/-- A cache state whose static store already holds index.html. -/
def hitState : CacheState := [(STATIC_CACHE, [("./index.html", idxResponse)])]

/-- History record 1, present only in the fast backend. -/
def rec1 : HistoryRecord :=
  ⟨1, "generated", "public", "text", some "c1", none, 100, "p1", 2⟩

/-- History record 2 as stored in the fast backend. -/
def rec2local : HistoryRecord :=
  ⟨2, "generated", "public", "text", some "c2-local", none, 200, "p2", 8⟩

/-- History record 2 as stored in the larger backend (with image payload). -/
def rec2idb : HistoryRecord :=
  ⟨2, "generated", "public", "text", some "c2-idb",
   some "data:image/png;base64,QQ==", 200, "p2", 6⟩

/-- History record 3, present only in the larger backend. -/
def rec3 : HistoryRecord :=
  ⟨3, "scanned", "public", "text", some "c3", none, 300, "p3", 2⟩

/-- Fast backend holding records 1 and 2 for the merge scenario. -/
def lsScenario : LocalStorageEnv := ⟨fun _ => true, some [rec1, rec2local]⟩

/-- Larger backend holding records 2 and 3 for the merge scenario. -/
def idbScenario : IDBState := ⟨true, [rec2idb, rec3]⟩

/-- An unavailable larger backend. -/
def idbOff : IDBState := ⟨false, []⟩

/-- A full record with raw content and a rendered-image payload. -/
def recFull : HistoryRecord :=
  ⟨11, "generated", "public", "text", some "hello raw content",
   some "data:image/png;base64,AAAA", 400, "hello", 17⟩

/-- Approximate serialized size of a stored array, used as the quota model
of the concrete fixtures. -/
def approxSize (v : List HistoryRecord) : Nat :=
  v.foldl
    (fun a r =>
      a + r.preview.length + (r.content.getD "").length + (r.qrData.getD "").length) 0

/-- A localStorage backend whose quota permits only small values. -/
def smallQuotaLS : LocalStorageEnv := ⟨fun v => approxSize v ≤ 10, none⟩

/-- A localStorage backend with unlimited quota. -/
def roomyLS : LocalStorageEnv := ⟨fun _ => true, none⟩

/-- A record whose rendered-image payload is present but empty. -/
def recEmptyQr : HistoryRecord :=
  ⟨7, "generated", "public", "text", some "c", some "", 50, "c", 1⟩

/-- A record with a non-empty rendered-image payload. -/
def recWithQr : HistoryRecord :=
  ⟨8, "generated", "public", "text", some "c8",
   some "data:image/png;base64,BB==", 60, "c8", 2⟩

/-- Cache deletion oracle that always succeeds. -/
def delOk : String → Except String Unit := fun _ => Except.ok ()

/-- Cache deletion oracle that always fails with message boom. -/
def delBoom : String → Except String Unit := fun _ => Except.error "boom"

/-- Key-listing oracle with no entries. -/
def emptyStores : String → List String := fun _ => []

/-! ## Helper lemmas -/

theorem charsContains_nil (l : List Char) : charsContains [] l = true := by
  cases l <;> simp [charsContains, charsPrefix]

theorem jsIncludes_empty (s : String) : jsIncludes s "" = true := by
  have h : ("" : String).data = [] := rfl
  simp [jsIncludes, h, charsContains_nil]

/-- Root cause of the dead dynamic-origin rule: the first manifest entry
normalizes to the empty string under the replace, and every URL includes
the empty string, so the static-asset test accepts every URL. -/
theorem matchesStaticAssets_always (url : String) : matchesStaticAssets url = true := by
  have h1 : jsReplace "./" "./" "" = "" := by decide
  simp [matchesStaticAssets, STATIC_ASSETS, h1, jsIncludes_empty]

theorem any_id_iff (m : List HistoryRecord) (k : Nat) :
    m.any (fun r => r.id == k) = true ↔ ∃ r ∈ m, r.id = k := by
  rw [List.any_eq_true]
  constructor
  · rintro ⟨r, hr, h⟩
    exact ⟨r, hr, by simpa using h⟩
  · rintro ⟨r, hr, h⟩
    exact ⟨r, hr, by simpa using h⟩

theorem hasId_nil (i : Nat) : ¬ hasId [] i := by
  rintro ⟨r, hr, _⟩
  cases hr

theorem hasId_cons (x : HistoryRecord) (l : List HistoryRecord) (i : Nat) :
    hasId (x :: l) i ↔ x.id = i ∨ hasId l i := by
  constructor
  · rintro ⟨r, hr, hid⟩
    rcases List.mem_cons.mp hr with rfl | h
    · exact Or.inl hid
    · exact Or.inr ⟨r, h, hid⟩
  · rintro (h | ⟨r, hr, hid⟩)
    · exact ⟨x, List.mem_cons_self x l, h⟩
    · exact ⟨r, List.mem_cons_of_mem x hr, hid⟩

theorem hasId_append_single (m : List HistoryRecord) (x : HistoryRecord) (i : Nat) :
    hasId (m ++ [x]) i ↔ hasId m i ∨ x.id = i := by
  constructor
  · rintro ⟨r, hr, hid⟩
    rcases List.mem_append.mp hr with h | h
    · exact Or.inl ⟨r, h, hid⟩
    · have hrx : r = x := by simpa using h
      subst hrx
      exact Or.inr hid
  · rintro (⟨r, hr, hid⟩ | h)
    · exact ⟨r, List.mem_append_left _ hr, hid⟩
    · exact ⟨x, List.mem_append_right _ (List.mem_cons_self x []), h⟩

theorem hasId_mapSet (m : List HistoryRecord) (x : HistoryRecord) (i : Nat) :
    hasId (mapSet m x) i ↔ hasId m i ∨ x.id = i := by
  unfold mapSet
  by_cases h : m.any (fun r => r.id == x.id) = true
  · rw [if_pos h]
    rw [any_id_iff] at h
    obtain ⟨r0, hr0, hid0⟩ := h
    constructor
    · rintro ⟨s, hs, hsid⟩
      rw [List.mem_map] at hs
      obtain ⟨t, ht, hft⟩ := hs
      subst hft
      by_cases hc : t.id = x.id
      · right
        rw [if_pos (by simpa using hc)] at hsid
        exact hsid
      · left
        rw [if_neg (by simpa using hc)] at hsid
        exact ⟨t, ht, hsid⟩
    · rintro (⟨t, ht, htid⟩ | hxi)
      · refine ⟨if t.id == x.id then x else t, List.mem_map.mpr ⟨t, ht, rfl⟩, ?_⟩
        by_cases hc : t.id = x.id
        · rw [if_pos (by simpa using hc)]
          rw [← hc]
          exact htid
        · rw [if_neg (by simpa using hc)]
          exact htid
      · refine ⟨x, ?_, hxi⟩
        rw [List.mem_map]
        exact ⟨r0, hr0, by rw [if_pos (by simpa using hid0)]⟩
  · rw [if_neg h]
    exact hasId_append_single m x i

theorem hasId_foldl_mapSet (l : List HistoryRecord) :
    ∀ (m : List HistoryRecord) (i : Nat),
      hasId (l.foldl mapSet m) i ↔ hasId m i ∨ hasId l i := by
  induction l with
  | nil =>
      intro m i
      simp
  | cons x xs ih =>
      intro m i
      rw [List.foldl_cons, ih, hasId_mapSet, hasId_cons]
      exact or_assoc

theorem hasId_addMissing (l : List HistoryRecord) :
    ∀ (m : List HistoryRecord) (i : Nat),
      hasId (addMissing m l) i ↔ hasId m i ∨ hasId l i := by
  induction l with
  | nil =>
      intro m i
      simp [addMissing]
  | cons x xs ih =>
      intro m i
      have hstep : addMissing m (x :: xs) =
          addMissing (if m.any (fun r => r.id == x.id) then m else m ++ [x]) xs := rfl
      rw [hstep]
      by_cases h : m.any (fun r => r.id == x.id) = true
      · rw [if_pos h, ih, hasId_cons]
        rw [any_id_iff] at h
        obtain ⟨r0, hr0, hid0⟩ := h
        constructor
        · rintro (hm | hxs)
          · exact Or.inl hm
          · exact Or.inr (Or.inr hxs)
        · rintro (hm | (hxi | hxs))
          · exact Or.inl hm
          · exact Or.inl ⟨r0, hr0, by rw [hid0, hxi]⟩
          · exact Or.inr hxs
      · rw [if_neg h, ih, hasId_append_single, hasId_cons]
        exact or_assoc

theorem mem_addMissing_new (l : List HistoryRecord) :
    ∀ (m : List HistoryRecord) (x : HistoryRecord), x ∈ addMissing m l →
      x ∈ m ∨ (x ∈ l ∧ ¬ hasId m x.id) := by
  induction l with
  | nil =>
      intro m x h
      exact Or.inl h
  | cons y ys ih =>
      intro m x h
      have hstep : addMissing m (y :: ys) =
          addMissing (if m.any (fun r => r.id == y.id) then m else m ++ [y]) ys := rfl
      rw [hstep] at h
      by_cases hc : m.any (fun r => r.id == y.id) = true
      · rw [if_pos hc] at h
        rcases ih m x h with h2 | ⟨h2, h3⟩
        · exact Or.inl h2
        · exact Or.inr ⟨List.mem_cons_of_mem y h2, h3⟩
      · rw [if_neg hc] at h
        rcases ih (m ++ [y]) x h with h2 | ⟨h2, h3⟩
        · rcases List.mem_append.mp h2 with h4 | h4
          · exact Or.inl h4
          · right
            have hxy : x = y := by simpa using h4
            subst hxy
            refine ⟨List.mem_cons_self x ys, ?_⟩
            intro hid
            exact hc ((any_id_iff m x.id).mpr hid)
        · right
          refine ⟨List.mem_cons_of_mem y h2, ?_⟩
          intro hid
          obtain ⟨r0, hr0, hid0⟩ := hid
          exact h3 ⟨r0, List.mem_append_left _ hr0, hid0⟩

theorem foldl_mapSet_eq (l : List HistoryRecord) :
    (l.map HistoryRecord.id).Nodup → ∀ m : List HistoryRecord,
      (∀ r ∈ m, ∀ s ∈ l, r.id ≠ s.id) → l.foldl mapSet m = m ++ l := by
  induction l with
  | nil =>
      intro _ m _
      simp
  | cons x xs ih =>
      intro hnd m hdisj
      rw [List.foldl_cons]
      have hany : ¬ m.any (fun r => r.id == x.id) = true := by
        intro h
        rw [any_id_iff] at h
        obtain ⟨r0, hr0, hid0⟩ := h
        exact hdisj r0 hr0 x (List.mem_cons_self x xs) hid0
      have hms : mapSet m x = m ++ [x] := by
        unfold mapSet
        rw [if_neg hany]
      rw [hms]
      rw [List.map_cons, List.nodup_cons] at hnd
      have hd2 : ∀ r ∈ m ++ [x], ∀ s ∈ xs, r.id ≠ s.id := by
        intro r hr s hs
        rcases List.mem_append.mp hr with h3 | h3
        · exact hdisj r h3 s (List.mem_cons_of_mem x hs)
        · have hrx : r = x := by simpa using h3
          subst hrx
          intro he
          apply hnd.1
          rw [List.mem_map]
          exact ⟨s, hs, he.symm⟩
      rw [ih hnd.2 (m ++ [x]) hd2, List.append_assoc]
      rfl

/-! ## Claim theorems -/

/-- C1: refuted by the code.  Evaluated at the failing input: the GET
request for a fonts.gstatic.com URL matches a dynamic-origin pattern and is
not a static-asset manifest entry, yet the intercepting dispatcher serves
it with the CacheFirst strategy against the static store and never touches
the dynamic store — rule (1) matches every URL because the manifest entry
./ normalizes to the empty substring, so rule (2) is unreachable. -/
theorem C1_dynamic_origin_request_served_by_static_rule :
    (∀ url : String, matchesStaticAssets url = true) ∧
    matchesDynamicPattern fontsURL = true ∧
    fontsURL ∉ STATIC_ASSETS ∧
    fetchEvent appOrigin fontsNet [] fontsRequest =
      some (some fontsResponse, [(STATIC_CACHE, [(fontsURL, fontsResponse)])]) := by
  refine ⟨matchesStaticAssets_always, by decide, by decide, by decide⟩

/-- C2: the CacheFirst strategy returns a stored response without issuing a
network fetch and without changing the store; on a miss it fetches,
persists a copy exactly when the response is ok, and returns the network
response; on network failure it returns the 503 unavailable response
rather than propagating the failure. -/
theorem C2_cacheFirst_contract (net : Net) (st : CacheState) (req : Request)
    (cacheName : String) :
    (∀ r, cacheMatch st cacheName req.url = some r →
      cacheFirst net st req cacheName = ⟨Except.ok (some r), st, false⟩) ∧
    (∀ nr, cacheMatch st cacheName req.url = none → net req.url = some nr →
      cacheFirst net st req cacheName =
        ⟨Except.ok (some nr),
         if nr.ok then cachePut st cacheName req.url nr else st, true⟩) ∧
    (cacheMatch st cacheName req.url = none → net req.url = none →
      cacheFirst net st req cacheName =
        ⟨Except.ok (some resourceUnavailableResponse), st, true⟩) := by
  refine ⟨?_, ?_, ?_⟩
  · intro r h
    simp [cacheFirst, h]
  · intro nr h1 h2
    by_cases hok : nr.ok <;> simp [cacheFirst, h1, h2, hok]
  · intro h1 h2
    simp [cacheFirst, h1, h2]

theorem C2_cacheFirst_contract_witness :
    cacheFirst netDown hitState idxRequest STATIC_CACHE =
      ⟨Except.ok (some idxResponse), hitState, false⟩ ∧
    cacheFirst fontsNet [] fontsRequest STATIC_CACHE =
      ⟨Except.ok (some fontsResponse),
       if fontsResponse.ok then cachePut [] STATIC_CACHE fontsURL fontsResponse
       else [], true⟩ ∧
    cacheFirst netDown [] fontsRequest STATIC_CACHE =
      ⟨Except.ok (some resourceUnavailableResponse), [], true⟩ :=
  ⟨(C2_cacheFirst_contract netDown hitState idxRequest STATIC_CACHE).1 idxResponse
      (by decide),
   (C2_cacheFirst_contract fontsNet [] fontsRequest STATIC_CACHE).2.1 fontsResponse
      (by decide) (by decide),
   (C2_cacheFirst_contract netDown [] fontsRequest STATIC_CACHE).2.2
      (by decide) (by decide)⟩

/-- C3: refuted by the code.  Evaluated at the failing input (no stored
value, unreachable network): StaleWhileRevalidate resolves with undefined
(`Except.ok none`) because the catch handler of the background fetch only
logs — the failure is silently replaced rather than propagated to the
caller. -/
theorem C3_swr_miss_failure_swallowed :
    cacheMatch ([] : CacheState) STATIC_CACHE swrRequest.url = none ∧
    netDown swrRequest.url = none ∧
    staleWhileRevalidate netDown [] swrRequest STATIC_CACHE =
      ⟨Except.ok none, [], true⟩ ∧
    (staleWhileRevalidate netDown [] swrRequest STATIC_CACHE).result ≠
      Except.error () := by
  refine ⟨by decide, rfl, by decide, by decide⟩

/-- C7: whenever the try block of the dispatcher rejects, handleFetch
substitutes the locally synthesized handleFetchError response — the offline
placeholder page when the Accept header includes text/html, the generic 503
response otherwise — and the rejection never escapes. -/
theorem C7_dispatch_substitutes_on_rejection (req : Request)
    (tryOutcome : Except Unit (Option Response)) (e : Unit)
    (h : tryOutcome = Except.error e) :
    dispatchWithFallback req tryOutcome = some (handleFetchError req) ∧
    (acceptsHtml req = true →
      dispatchWithFallback req tryOutcome = some offlinePageResponse) ∧
    (acceptsHtml req = false →
      dispatchWithFallback req tryOutcome = some genericOfflineResponse) ∧
    (∀ (selfOrigin : String) (net : Net) (st : CacheState),
      (handleFetchCore selfOrigin net st req).result = tryOutcome →
      handleFetch selfOrigin net st req =
        (some (handleFetchError req), (handleFetchCore selfOrigin net st req).state)) := by
  subst h
  refine ⟨rfl, ?_, ?_, ?_⟩
  · intro ha
    simp [dispatchWithFallback, handleFetchError, ha]
  · intro ha
    simp [dispatchWithFallback, handleFetchError, ha]
  · intro selfOrigin net st hcore
    simp [handleFetch, hcore, dispatchWithFallback]

theorem C7_dispatch_substitutes_on_rejection_witness :
    dispatchWithFallback swrRequest (Except.error ()) = some offlinePageResponse ∧
    dispatchWithFallback fontsRequest (Except.error ()) = some genericOfflineResponse :=
  ⟨(C7_dispatch_substitutes_on_rejection swrRequest (Except.error ()) () rfl).2.1
      (by decide),
   (C7_dispatch_substitutes_on_rejection fontsRequest (Except.error ()) () rfl).2.2.1
      (by decide)⟩

/-- C8: the CLEAR_CACHE handler posts exactly one reply over the provided
port: success true when deleting the caches succeeds, success false
together with the error message when deletion fails — never silence and
never a thrown error. -/
theorem C8_clear_cache_replies_exactly_once (names : List String)
    (del : String → Except String Unit) (stores : String → List String) :
    (handleMessage SWMessage.clearCache names del stores).1.length = 1 ∧
    (clearAllCaches names del = Except.ok () →
      (handleMessage SWMessage.clearCache names del stores).1 =
        [⟨"CACHE_CLEARED", some true, none, none, none⟩]) ∧
    (∀ e, clearAllCaches names del = Except.error e →
      (handleMessage SWMessage.clearCache names del stores).1 =
        [⟨"CACHE_CLEARED", some false, some e, none, none⟩]) := by
  refine ⟨?_, ?_, ?_⟩
  · cases h : clearAllCaches names del <;> simp [handleMessage, h]
  · intro h
    simp [handleMessage, h]
  · intro e h
    simp [handleMessage, h]

theorem C8_clear_cache_replies_exactly_once_witness :
    (handleMessage SWMessage.clearCache ["scanzo-static-v2.1.0"] delOk emptyStores).1 =
      [⟨"CACHE_CLEARED", some true, none, none, none⟩] ∧
    (handleMessage SWMessage.clearCache ["scanzo-static-v2.1.0"] delBoom emptyStores).1 =
      [⟨"CACHE_CLEARED", some false, some "boom", none, none⟩] :=
  ⟨(C8_clear_cache_replies_exactly_once ["scanzo-static-v2.1.0"] delOk
      emptyStores).2.1 (by decide),
   (C8_clear_cache_replies_exactly_once ["scanzo-static-v2.1.0"] delBoom
      emptyStores).2.2 "boom" (by decide)⟩

/-- C9: in every execution of the activate handler, each completed store
deletion appears strictly before the claim of the open clients in the
handler trace: `clients.claim()` runs only after the awaited
`Promise.all` over all deletions has resolved. -/
theorem C9_activate_deletes_precede_claim (names : List String) (del : String → Bool)
    (i j : Nat) (n : String)
    (hc : (activateHandler names del)[i]? = some ActivateEvent.claimClients)
    (hd : (activateHandler names del)[j]? = some (ActivateEvent.deleteStore n)) :
    j < i := by
  unfold activateHandler at hc hd
  rw [List.getElem?_append] at hc hd
  have hAi : (((activateTargets names).filter del).map ActivateEvent.deleteStore).length ≤ i := by
    by_contra hlt
    push_neg at hlt
    rw [if_pos hlt, List.getElem?_map] at hc
    cases hl : (((activateTargets names).filter del))[i]? with
    | none => rw [hl] at hc; simp at hc
    | some x => rw [hl] at hc; simp at hc
  have hBj : j < (((activateTargets names).filter del).map ActivateEvent.deleteStore).length := by
    by_contra hge
    push_neg at hge
    rw [if_neg (by omega)] at hd
    by_cases hall : (activateTargets names).all del = true
    · rw [if_pos hall] at hd
      cases hk : j - (((activateTargets names).filter del).map ActivateEvent.deleteStore).length with
      | zero => rw [hk] at hd; simp at hd
      | succ k => rw [hk] at hd; simp at hd
    · rw [if_neg hall] at hd
      simp at hd
  omega

theorem C9_activate_deletes_precede_claim_witness :
    (activateHandler ["scanzo-static-v1.0.0"] (fun _ => true))[1]? =
      some ActivateEvent.claimClients ∧
    (activateHandler ["scanzo-static-v1.0.0"] (fun _ => true))[0]? =
      some (ActivateEvent.deleteStore "scanzo-static-v1.0.0") ∧
    0 < 1 :=
  ⟨by decide, by decide,
   C9_activate_deletes_precede_claim ["scanzo-static-v1.0.0"] (fun _ => true) 1 0
     "scanzo-static-v1.0.0" (by decide) (by decide)⟩

/-- C4: with the larger backend available and its identifiers distinct,
loadHistory returns the identifier-keyed union of the two backends sorted
by timestamp descending, every returned record comes from one of the two
backends, and every returned record whose identifier occurs in the
IndexedDB backend is the version held by that backend. -/
theorem C4_loadHistory_merges_backends (ls : LocalStorageEnv) (idb : IDBState)
    (ha : idb.available = true)
    (hnd : (idb.records.map HistoryRecord.id).Nodup) :
    List.Sorted tsGE (loadHistory ls idb) ∧
    (∀ s ∈ loadHistory ls idb, s ∈ loadFromLocalStorage ls ∨ s ∈ idb.records) ∧
    (∀ i : Nat, hasId (loadHistory ls idb) i ↔
      hasId (loadFromLocalStorage ls) i ∨ hasId idb.records i) ∧
    (∀ s ∈ loadHistory ls idb, ∀ r ∈ idb.records, s.id = r.id → s = r) := by
  have hload : loadHistory ls idb =
      sortByTimestampDesc (mergeHistoryData (loadFromLocalStorage ls) idb.records) := by
    simp [loadHistory, loadFromIndexedDB, ha]
  have hm1 : idb.records.foldl mapSet [] = idb.records := by
    have h := foldl_mapSet_eq idb.records hnd []
      (fun r hr => absurd hr (List.not_mem_nil r))
    simpa using h
  have hperm : List.Perm (loadHistory ls idb)
      (mergeHistoryData (loadFromLocalStorage ls) idb.records) := by
    rw [hload]
    exact List.perm_insertionSort tsGE _
  refine ⟨?_, ?_, ?_, ?_⟩
  · rw [hload]
    exact List.sorted_insertionSort tsGE _
  · intro s hs
    have hs2 := hperm.subset hs
    unfold mergeHistoryData at hs2
    rcases mem_addMissing_new _ _ _ hs2 with h | ⟨h, _⟩
    · right
      rwa [hm1] at h
    · exact Or.inl h
  · intro i
    have hiff : hasId (loadHistory ls idb) i ↔
        hasId (mergeHistoryData (loadFromLocalStorage ls) idb.records) i := by
      constructor <;> rintro ⟨r, hr, hid⟩
      · exact ⟨r, hperm.subset hr, hid⟩
      · exact ⟨r, hperm.symm.subset hr, hid⟩
    rw [hiff]
    unfold mergeHistoryData
    rw [hasId_addMissing, hasId_foldl_mapSet]
    constructor
    · rintro ((h | h) | h)
      · exact absurd h (hasId_nil i)
      · exact Or.inr h
      · exact Or.inl h
    · rintro (h | h)
      · exact Or.inr h
      · exact Or.inl (Or.inr h)
  · intro s hs r hr hid
    have hs2 := hperm.subset hs
    unfold mergeHistoryData at hs2
    rcases mem_addMissing_new _ _ _ hs2 with h | ⟨_, hnot⟩
    · rw [hm1] at h
      exact List.inj_on_of_nodup_map hnd h hr hid
    · exfalso
      apply hnot
      rw [hm1]
      exact ⟨r, hr, hid.symm⟩

theorem C4_loadHistory_merges_backends_witness :
    hasId (loadHistory lsScenario idbScenario) 1 ∧
    hasId (loadHistory lsScenario idbScenario) 2 ∧
    hasId (loadHistory lsScenario idbScenario) 3 ∧
    ¬ hasId (loadHistory lsScenario idbScenario) 4 ∧
    List.Sorted tsGE (loadHistory lsScenario idbScenario) ∧
    (∀ s ∈ loadHistory lsScenario idbScenario, s.id = 2 → s = rec2idb) := by
  have h := C4_loadHistory_merges_backends lsScenario idbScenario rfl (by decide)
  refine ⟨?_, ?_, ?_, ?_, h.1, ?_⟩
  · exact (h.2.2.1 1).mpr (Or.inl ⟨rec1, by decide, rfl⟩)
  · exact (h.2.2.1 2).mpr (Or.inr ⟨rec2idb, by decide, rfl⟩)
  · exact (h.2.2.1 3).mpr (Or.inr ⟨rec3, by decide, rfl⟩)
  · intro hbad
    rcases (h.2.2.1 4).mp hbad with h4 | h4 <;> revert h4 <;> decide
  · intro s hs h2
    exact h.2.2.2 s hs rec2idb (by decide) (h2.trans rfl)

/-- C6: the history merge is commutative and idempotent on record
identifiers: merge(A, B) has the same identifier set as merge(B, A), and
merge(A, A) has exactly the identifiers of A. -/
theorem C6_merge_commutative_idempotent_on_ids (A B : List HistoryRecord) :
    (∀ i : Nat, hasId (mergeHistoryData A B) i ↔ hasId (mergeHistoryData B A) i) ∧
    (∀ i : Nat, hasId (mergeHistoryData A A) i ↔ hasId A i) := by
  have key : ∀ (X Y : List HistoryRecord) (i : Nat),
      hasId (mergeHistoryData X Y) i ↔ hasId Y i ∨ hasId X i := by
    intro X Y i
    unfold mergeHistoryData
    rw [hasId_addMissing, hasId_foldl_mapSet]
    constructor
    · rintro ((h | h) | h)
      · exact absurd h (hasId_nil i)
      · exact Or.inl h
      · exact Or.inr h
    · rintro (h | h)
      · exact Or.inl (Or.inr h)
      · exact Or.inr h
  constructor
  · intro i
    rw [key, key]
    exact or_comm
  · intro i
    rw [key]
    exact or_self_iff

/-- C5: refuted by the code at a concrete input.  A quota-exceeding
fast-backend write of one full record is retried with the reduced-fidelity
projection, but a subsequent load (larger backend unavailable) returns the
record without its raw content as well — the record is not missing only
the rendered-image payload, contrary to the claim. -/
theorem C5_quota_retry_drops_content_counterexample :
    setItem smallQuotaLS ([recFull].map sanitizeForLocal) =
      Except.error JSError.quotaExceeded ∧
    saveToLocalStorage smallQuotaLS [recFull] =
      Except.ok { smallQuotaLS with store := some [minimalProjection recFull] } ∧
    loadHistory { smallQuotaLS with store := some [minimalProjection recFull] } idbOff =
      [minimalProjection recFull] ∧
    recFull.content = some "hello raw content" ∧
    (minimalProjection recFull).content = none := by
  exact ⟨rfl, rfl, rfl, rfl, rfl⟩

/-- C5 amended: when a full-fidelity fast-backend write exceeds the quota
and the reduced-fidelity write fits, the save succeeds with the
reduced projection, and a subsequent load with the larger backend
unavailable returns the same number of records, each retaining only
identifier, kind, mode, content type, preview, timestamp and size — i.e.
missing both the raw content and the rendered-image payload. -/
theorem C5_quota_retry_minimal_records (ls : LocalStorageEnv)
    (hist : List HistoryRecord) (idb : IDBState)
    (hidb : idb.available = false)
    (hfull : ls.fits (hist.map sanitizeForLocal) = false)
    (hmin : ls.fits (hist.map minimalProjection) = true) :
    saveToLocalStorage ls hist =
      Except.ok { ls with store := some (hist.map minimalProjection) } ∧
    (loadHistory { ls with store := some (hist.map minimalProjection) } idb).length
      = hist.length ∧
    ∀ s ∈ loadHistory { ls with store := some (hist.map minimalProjection) } idb,
      s.content = none ∧ s.qrData = none ∧ ∃ o ∈ hist, s = minimalProjection o := by
  have h1 : setItem ls (hist.map sanitizeForLocal) =
      Except.error JSError.quotaExceeded := by
    simp [setItem, hfull]
  have h2 : setItem ls (hist.map minimalProjection) =
      Except.ok { ls with store := some (hist.map minimalProjection) } := by
    simp [setItem, hmin]
  have hload : loadHistory { ls with store := some (hist.map minimalProjection) } idb =
      sortByTimestampDesc (hist.map minimalProjection) := by
    simp [loadHistory, hidb, loadFromLocalStorage]
  refine ⟨?_, ?_, ?_⟩
  · simp [saveToLocalStorage, h1, h2]
  · rw [hload]
    simp [sortByTimestampDesc]
  · intro s hs
    rw [hload] at hs
    simp only [sortByTimestampDesc, List.mem_insertionSort] at hs
    rw [List.mem_map] at hs
    obtain ⟨o, ho, hso⟩ := hs
    subst hso
    exact ⟨rfl, rfl, o, ho, rfl⟩

theorem C5_quota_retry_minimal_records_witness :
    saveToLocalStorage smallQuotaLS [recFull] =
      Except.ok { smallQuotaLS with store := some ([recFull].map minimalProjection) } ∧
    (loadHistory { smallQuotaLS with store := some ([recFull].map minimalProjection) }
      idbOff).length = 1 ∧
    ∀ s ∈ loadHistory { smallQuotaLS with store := some ([recFull].map minimalProjection) }
        idbOff,
      s.content = none ∧ s.qrData = none ∧ ∃ o ∈ [recFull], s = minimalProjection o := by
  have h := C5_quota_retry_minimal_records smallQuotaLS [recFull] idbOff rfl
    (by decide) (by decide)
  exact ⟨h.1, h.2.1, h.2.2⟩

/-- C10: refuted by the code at a record whose rendered-image payload is
present but the empty string: the value written to localStorage carries
qrData undefined, not the sentinel string — JavaScript truthiness, not
field presence, drives the replacement. -/
theorem C10_empty_payload_not_sentinel_counterexample :
    recEmptyQr.qrData = some "" ∧
    (sanitizeForLocal recEmptyQr).qrData = none ∧
    ¬ (sanitizeForLocal recEmptyQr).qrData = some "stored_in_indexeddb" ∧
    saveToLocalStorage roomyLS [recEmptyQr] =
      Except.ok { roomyLS with store := some [sanitizeForLocal recEmptyQr] } := by
  exact ⟨rfl, by decide, by decide, rfl⟩

/-- C10 amended: under a successful first-attempt write, the array written
to localStorage is the sanitized projection: a record with a present and
non-empty rendered-image payload is written with the sentinel string
stored_in_indexeddb in its place, a record with an absent or empty payload
is written with the field undefined; in every case the written payload
field is either undefined or the sentinel (never the original bytes), and
identifier, content and timestamp are preserved. -/
theorem C10_sanitized_write_spec (ls : LocalStorageEnv) (hist : List HistoryRecord)
    (hfits : ls.fits (hist.map sanitizeForLocal) = true) :
    saveToLocalStorage ls hist =
      Except.ok { ls with store := some (hist.map sanitizeForLocal) } ∧
    ∀ item ∈ hist,
      ((∃ q, item.qrData = some q ∧ q ≠ "") →
        (sanitizeForLocal item).qrData = some "stored_in_indexeddb") ∧
      ((item.qrData = none ∨ item.qrData = some "") →
        (sanitizeForLocal item).qrData = none) ∧
      ((sanitizeForLocal item).qrData = none ∨
        (sanitizeForLocal item).qrData = some "stored_in_indexeddb") ∧
      (sanitizeForLocal item).id = item.id ∧
      (sanitizeForLocal item).content = item.content ∧
      (sanitizeForLocal item).timestamp = item.timestamp := by
  constructor
  · have h1 : setItem ls (hist.map sanitizeForLocal) =
        Except.ok { ls with store := some (hist.map sanitizeForLocal) } := by
      simp [setItem, hfits]
    simp [saveToLocalStorage, h1]
  · intro item _
    refine ⟨?_, ?_, ?_, rfl, rfl, rfl⟩
    · rintro ⟨q, hq, hne⟩
      simp [sanitizeForLocal, jsTruthy, hq, hne]
    · rintro (hq | hq) <;> simp [sanitizeForLocal, jsTruthy, hq]
    · by_cases h : jsTruthy item.qrData = true <;> simp [sanitizeForLocal, h]

theorem C10_sanitized_write_spec_witness :
    saveToLocalStorage roomyLS [recWithQr, rec1] =
      Except.ok { roomyLS with store := some ([recWithQr, rec1].map sanitizeForLocal) } ∧
    (sanitizeForLocal recWithQr).qrData = some "stored_in_indexeddb" ∧
    (sanitizeForLocal rec1).qrData = none := by
  have h := C10_sanitized_write_spec roomyLS [recWithQr, rec1] (by decide)
  refine ⟨h.1, ?_, ?_⟩
  · exact (h.2 recWithQr (by decide)).1 ⟨"data:image/png;base64,BB==", rfl, by decide⟩
  · exact (h.2 rec1 (by decide)).2.1 (Or.inl rfl)

end Scanzo
